import Mathlib

/-!
Shallow embedding of the gymlogv2 gym-session tracker (Django app `gym_app`
plus the `OLD_LOGS/merge_duplicates.py` maintenance script).

Modelling conventions:
* Datetimes are integers counting seconds; dates are integers counting days.
  A datetime `t` lies on day `d` exactly when `d * 86400 ≤ t ≤ d * 86400 + 86399`;
  `datetime.combine(d, time(23,59,59))` is `d * 86400 + 86399`.  The `date`
  column of a session is an independent field (set at check-in), so nothing
  forces `check_in_time` to lie on `date` — the clock-skew scenarios the
  spec mentions are exactly the stores where it does not.
* `timedelta.total_seconds() / 60` truncates toward zero under `int(...)`,
  which is `Int.tdiv _ 60`; `total_seconds() // 60` floors, which is
  `Int.fdiv _ 60`.
* Django rows become list elements; a queryset `filter` becomes `List.filter`,
  `.first()` becomes `List.find?`, and `update_or_create` on the
  `(student, date)`-unique `DailyGymStats` table becomes an upsert on an
  association list.
-/

namespace GymLog

/-- One row of the `gym_sessions` table (`gym_app/models.py`, class
`GymSession`).  `student` is the foreign key, as a bare id.  `check_in_time`
is a non-nullable column, `check_out_time` nullable.  `duration_minutes` is
declared `PositiveIntegerField` in Django but the Python code computes and
assigns plain ints to it, so it is modelled as `Int` (negative assignments
are exactly the states some claims are about). -/
structure GymSession where
  student : Nat
  check_in_time : Int
  check_out_time : Option Int
  duration_minutes : Int
  date : Int
  is_active : Bool
deriving DecidableEq, Repr

/-- `GymSession.save` (models.py lines 137-143): when both timestamps are
set, recompute `duration_minutes = int((check_out - check_in).total_seconds() / 60)`
(truncation toward zero) and force `is_active = False`; otherwise store the
row as given. -/
def GymSession.save (s : GymSession) : GymSession :=
  match s.check_out_time with
  | some co =>
      { s with duration_minutes := Int.tdiv (co - s.check_in_time) 60
               is_active := false }
  | none => s

/-- `_end_of_day` (maintenance.py line 10): `datetime.combine(d, time(23,59,59))`. -/
def end_of_day (d : Int) : Int := d * 86400 + 86399

/-- The `gym_daily_stats` table: association list from `(student, date)`
(unique together) to `(total_sessions, total_minutes)`. -/
def Stats : Type := List ((Nat × Int) × (Nat × Int))

instance : DecidableEq Stats := by unfold Stats; infer_instance

instance : Repr Stats := by unfold Stats; infer_instance

/-- Row lookup in `gym_daily_stats` by its unique `(student, date)` key. -/
def statLookup (k : Nat × Int) : Stats → Option (Nat × Int)
  | [] => none
  | (k', v) :: rest => if k' = k then some v else statLookup k rest

/-- Django `update_or_create(student=…, date=…, defaults=…)`: replace the
value at the key when present, append a fresh row otherwise. -/
def update_or_create (k : Nat × Int) (v : Nat × Int) : Stats → Stats
  | [] => [(k, v)]
  | (k', v') :: rest =>
      if k' = k then (k, v) :: rest else (k', v') :: update_or_create k v rest

/-- The queryset of `DailyGymStats.update_daily_stats` (models.py lines
223-247): this student's sessions on this date with `check_out_time` not
null. -/
def completedFor (student : Nat) (date : Int) (s : GymSession) : Bool :=
  s.student == student && s.date == date && s.check_out_time.isSome

/-- The aggregate `update_daily_stats` recomputes: `(sessions.count(),
sum(session.duration_minutes for session in sessions))`. -/
def statsFor (ss : List GymSession) (student : Nat) (date : Int) : Nat × Int :=
  let l := ss.filter (completedFor student date)
  (l.length, (l.map GymSession.duration_minutes).sum)

/-- `DailyGymStats.update_daily_stats` (models.py lines 223-247): recompute
the aggregates from the completed sessions of `(student, date)` and
`update_or_create` the row with them. -/
def update_daily_stats (ss : List GymSession) (student : Nat) (date : Int)
    (stats : Stats) : Stats :=
  update_or_create (student, date) (statsFor ss student date) stats

/-- The mutable state the operations touch: registered (active) students by
id, the session table, and the daily-stats table. -/
structure Store where
  students : List Nat
  sessions : List GymSession
  stats : Stats
deriving DecidableEq, Repr

/-- The queryset filter of `close_stale_sessions_before_today`
(maintenance.py lines 21-25): `is_active=True, check_out_time__isnull=True,
date__lt=today`. -/
def staleSelect (today : Int) (s : GymSession) : Bool :=
  s.is_active && s.check_out_time.isNone && decide (s.date < today)

/-- The per-session body of `close_stale_sessions_before_today`
(maintenance.py lines 27-38): close at
`min(check_in + 2h, end_of_day(date))`, compute the floored minute count,
clamp a negative result to zero, then `session.save()` — which, both
timestamps now being set, recomputes `duration_minutes` by truncation and
overwrites the clamped value. -/
def stale_close_session (s : GymSession) : GymSession :=
  let new_checkout := min (s.check_in_time + 7200) (end_of_day s.date)
  let dm := Int.fdiv (new_checkout - s.check_in_time) 60
  let dm := if dm < 0 then 0 else dm
  GymSession.save
    { s with check_out_time := some new_checkout
             duration_minutes := dm
             is_active := false }

/-- `cap_sessions_on_previous_days_to_two_hours` mutates a session exactly
when the queryset filter `date__lt=today` holds and the computed
`actual_checkout - check_in` exceeds two hours (maintenance.py lines 57-72;
the guarded `continue` branches are folded into this selection predicate —
the `if not session.check_in_time` guard is vacuous here because
`check_in_time` is a non-nullable column).  For a still-open session the
checkout used is the end of its own day. -/
def capSelect (today : Int) (s : GymSession) : Bool :=
  decide (s.date < today) &&
    decide (7200 < s.check_out_time.getD (end_of_day s.date) - s.check_in_time)

/-- The capping body (maintenance.py lines 74-81): checkout becomes
`check_in + 2h`, the duration 120, the session inactive, then `save()`
(which recomputes the same 120). -/
def cap_session (s : GymSession) : GymSession :=
  GymSession.save
    { s with check_out_time := some (s.check_in_time + 7200)
             duration_minutes := 120
             is_active := false }

/-- Common loop shape of both maintenance routines: walk the session table,
and for each selected session replace it by its transform and immediately
re-derive that student/date's daily-stats row from the table as it stands
at that point (processed prefix already new, unprocessed suffix still old),
counting the mutations.  `done` is the processed prefix, `pending` the rest. -/
def runMaint (sel : GymSession → Bool) (tf : GymSession → GymSession)
    (done : List GymSession) (pending : List GymSession) (stats : Stats)
    (n : Nat) : List GymSession × Stats × Nat :=
  match pending with
  | [] => (done, stats, n)
  | s :: rest =>
      if sel s then
        let s' := tf s
        runMaint sel tf (done ++ [s']) rest
          (update_daily_stats (done ++ s' :: rest) s.student s.date stats) (n + 1)
      else
        runMaint sel tf (done ++ [s]) rest stats n

/-- `close_stale_sessions_before_today` (maintenance.py lines 14-46),
returning the new store and the `updated_sessions` count. -/
def close_stale_sessions_before_today (today : Int) (st : Store) : Store × Nat :=
  let r := runMaint (staleSelect today) stale_close_session [] st.sessions st.stats 0
  ({ st with sessions := r.1, stats := r.2.1 }, r.2.2)

/-- `cap_sessions_on_previous_days_to_two_hours` (maintenance.py lines
49-86), returning the new store and the `updated_sessions` count.  (The
`order_by("check_in_time")` of the source only fixes the iteration order;
the table is walked in storage order here, which the per-session transform
and the final stats rows do not depend on.) -/
def cap_sessions_on_previous_days_to_two_hours (today : Int) (st : Store) :
    Store × Nat :=
  let r := runMaint (capSelect today) cap_session [] st.sessions st.stats 0
  ({ st with sessions := r.1, stats := r.2.1 }, r.2.2)

/-- `GymSession.get_daily_gym_time` (models.py lines 154-170): sum of
`duration_minutes` over this student's sessions on `date` with
`check_out_time` not null. -/
def GymSession.get_daily_gym_time (ss : List GymSession) (student : Nat)
    (date : Int) : Int :=
  ((ss.filter (completedFor student date)).map GymSession.duration_minutes).sum

/-- `GymSession.can_check_in` (models.py lines 172-194): refuse when the
student has an active session on any date; otherwise allow exactly when
`remaining = 120 - daily` is positive, returning `max 0 remaining`. -/
def GymSession.can_check_in (ss : List GymSession) (student : Nat)
    (date : Int) : Bool × Int :=
  if (ss.find? (fun s => s.student == student && s.is_active)).isSome then
    (false, 0)
  else
    let remaining := 120 - GymSession.get_daily_gym_time ss student date
    (decide (0 < remaining), max 0 remaining)

/-- Predicate used by the serializer and the check-out view for "this
student's active session" (`GymSession.objects.filter(student=…,
is_active=True)`). -/
def activeFor (student : Nat) (s : GymSession) : Bool :=
  s.student == student && s.is_active

/-- The error outcomes `CheckInOutSerializer.validate` can raise
(serializers.py lines 131-171). -/
inductive CIOError where
  | student_missing
  | already_checked_in
  | daily_limit
  | not_checked_in
deriving DecidableEq, Repr

/-- The two values of the serializer's `action` choice field. -/
inductive GymAction where
  | check_in
  | check_out
deriving DecidableEq, Repr

/-- `CheckInOutSerializer.validate` (serializers.py lines 131-171): look up
the active student, find their active session, and reject check-in when one
exists (or when the daily limit is hit) and check-out when none exists.
`none` means validation passed. -/
def CheckInOutSerializer.validate (today : Int) (st : Store) (student : Nat)
    (a : GymAction) : Option CIOError :=
  if student ∈ st.students then
    match a with
    | .check_in =>
        if (st.sessions.find? (activeFor student)).isSome then
          some .already_checked_in
        else if (GymSession.can_check_in st.sessions student today).1 then
          none
        else some .daily_limit
    | .check_out =>
        if (st.sessions.find? (activeFor student)).isSome then none
        else some .not_checked_in
  else some .student_missing

/-- The check-out branch of the view (views.py lines 220-226): set
`check_out_time = now` on the first active session of the student and
`save()` it (recomputing its duration and deactivating it); the rest of the
table is untouched. -/
def closeFirstActive (now : Int) (student : Nat) :
    List GymSession → List GymSession
  | [] => []
  | s :: rest =>
      if activeFor student s then
        GymSession.save { s with check_out_time := some now } :: rest
      else s :: closeFirstActive now student rest

/-- The `gym_check_in_out` endpoint (views.py lines 190-250): run the
serializer's `validate`; on failure return the store unchanged with
`success = False`.  On check-in create a fresh session row
(`check_in_time=now, date=now.date()`, open and active).  On check-out close
the student's first active session and then
`DailyGymStats.update_daily_stats(student, active_session.date)`. -/
def gym_check_in_out (today now : Int) (st : Store) (student : Nat)
    (a : GymAction) : Store × Bool :=
  match CheckInOutSerializer.validate today st student a with
  | some _ => (st, false)
  | none =>
      match a with
      | .check_in =>
          ({ st with sessions :=
              st.sessions ++ [⟨student, now, none, 0, today, true⟩] }, true)
      | .check_out =>
          match st.sessions.find? (activeFor student) with
          | none => (st, false)
          | some act =>
              let sessions' := closeFirstActive now student st.sessions
              ({ st with sessions := sessions'
                         stats := update_daily_stats sessions' student act.date
                                    st.stats }, true)

/-- The state `GymSession.save` leaves every row in, together with the
creation default (`duration_minutes = 0`, views.py lines 202-207) for rows
that are still open: completed rows carry the truncated minute count of
their timestamps, open rows the default 0. -/
def sessionWF (s : GymSession) : Prop :=
  s.duration_minutes =
    match s.check_out_time with
    | some co => Int.tdiv (co - s.check_in_time) 60
    | none => 0

instance (s : GymSession) : Decidable (sessionWF s) := by
  unfold sessionWF; infer_instance

/-- One candidate row of `OLD_LOGS/merge_duplicates.py`'s duplicate groups
(the fields `choose_primary` reads; `rfid` is `""` for a NULL or empty tag,
matching Python truthiness, and `registration_date` is the stored text,
compared as text exactly as the script does). -/
structure CandRow where
  id : Nat
  student_id : String
  rfid : String
  registration_date : String
deriving DecidableEq, Repr

/-- Full match of `^202\d-(140|040)\d{3}$` (merge_duplicates.py line 20). -/
def matchesPreferredId (s : String) : Bool :=
  match s.data with
  | ['2', '0', '2', d3, '-', a, b, c, d8, d9, d10] =>
      d3.isDigit && (a == '1' || a == '0') && b == '4' && c == '0' &&
        d8.isDigit && d9.isDigit && d10.isDigit
  | _ => false

/-- Full match of `^20\d{2}-\d{6}$` (merge_duplicates.py line 22). -/
def matchesGenericId (s : String) : Bool :=
  match s.data with
  | ['2', '0', d2, d3, '-', d5, d6, d7, d8, d9, d10] =>
      d2.isDigit && d3.isDigit && d5.isDigit && d6.isDigit && d7.isDigit &&
        d8.isDigit && d9.isDigit && d10.isDigit
  | _ => false

/-- `id_score` (merge_duplicates.py lines 17-24): 3 for a falsy id, 0 for
the preferred `202x-140xxx/202x-040xxx` pattern, 1 for the generic
`20xx-xxxxxx` pattern, 2 otherwise. -/
def id_score (student_id : String) : Nat :=
  if student_id = "" then 3
  else if matchesPreferredId student_id then 0
  else if matchesGenericId student_id then 1
  else 2

/-- Python text comparison (`str < str`), character by character on code
points: the order `sorted` applies to the `registration_date` strings. -/
def textLt : List Char → List Char → Bool
  | [], [] => false
  | [], _ :: _ => true
  | _ :: _, [] => false
  | a :: as, b :: bs => a.toNat < b.toNat || (a == b && textLt as bs)

/-- `strLt a b` is Python's `a < b` on strings. -/
def strLt (a b : String) : Bool := textLt a.data b.data

/-- The sort key of `choose_primary` (merge_duplicates.py lines 30-37):
`id_score + (0 if rfid else 1, registration_date or "", id)`, compared
lexicographically, ascending. -/
def rowKey (r : CandRow) : Nat × Nat × String × Nat :=
  (id_score r.student_id, if r.rfid = "" then 1 else 0, r.registration_date, r.id)

/-- Strict lexicographic order on the sort keys (Python tuple `<`;
`registration_date` strings compare as text). -/
def keyLt (a b : Nat × Nat × String × Nat) : Bool :=
  a.1 < b.1 || (a.1 == b.1 && (a.2.1 < b.2.1 || (a.2.1 == b.2.1 &&
    (strLt a.2.2.1 b.2.2.1 || (a.2.2.1 == b.2.2.1 && a.2.2.2 < b.2.2.2)))))

/-- `choose_primary` (merge_duplicates.py lines 27-41): `sorted(rows,
key=key)[0]` — the earliest row with the minimal key (Python's sort is
stable), `none` on an empty group. -/
def choose_primary (rows : List CandRow) : Option CandRow :=
  rows.foldl
    (fun acc r =>
      match acc with
      | none => some r
      | some best => if keyLt (rowKey r) (rowKey best) then some r else some best)
    none

/-! ### Helper lemmas about the maintenance loop -/

lemma runMaint_nil (sel : GymSession → Bool) (tf : GymSession → GymSession)
    (done : List GymSession) (stats : Stats) (n : Nat) :
    runMaint sel tf done [] stats n = (done, stats, n) := rfl

lemma runMaint_cons (sel : GymSession → Bool) (tf : GymSession → GymSession)
    (done : List GymSession) (s : GymSession) (rest : List GymSession)
    (stats : Stats) (n : Nat) :
    runMaint sel tf done (s :: rest) stats n =
      if sel s then
        runMaint sel tf (done ++ [tf s]) rest
          (update_daily_stats (done ++ tf s :: rest) s.student s.date stats)
          (n + 1)
      else runMaint sel tf (done ++ [s]) rest stats n := rfl

/-- Each selected session is replaced by its transform, every other row is
untouched, and the table keeps its length and order. -/
lemma runMaint_sessions (sel : GymSession → Bool) (tf : GymSession → GymSession) :
    ∀ (pending done : List GymSession) (stats : Stats) (n : Nat),
      (runMaint sel tf done pending stats n).1
        = done ++ pending.map (fun s => if sel s then tf s else s) := by
  intro pending
  induction pending with
  | nil => intro done stats n; simp [runMaint_nil]
  | cons s rest ih =>
      intro done stats n
      rw [runMaint_cons]
      by_cases h : sel s
      · rw [if_pos h, ih]; simp [h]
      · rw [if_neg h, ih]; simp [h]

/-- The loop counts exactly the selected sessions. -/
lemma runMaint_count (sel : GymSession → Bool) (tf : GymSession → GymSession) :
    ∀ (pending done : List GymSession) (stats : Stats) (n : Nat),
      (runMaint sel tf done pending stats n).2.2 = n + pending.countP sel := by
  intro pending
  induction pending with
  | nil => intro done stats n; simp [runMaint_nil]
  | cons s rest ih =>
      intro done stats n
      rw [runMaint_cons]
      by_cases h : sel s
      · rw [if_pos h, ih]; simp [List.countP_cons, h]; omega
      · rw [if_neg h, ih]; simp [List.countP_cons, h]

/-- When nothing is selected the loop is the identity. -/
lemma runMaint_noop (sel : GymSession → Bool) (tf : GymSession → GymSession) :
    ∀ (pending done : List GymSession) (stats : Stats) (n : Nat),
      (∀ s ∈ pending, sel s = false) →
      runMaint sel tf done pending stats n = (done ++ pending, stats, n) := by
  intro pending
  induction pending with
  | nil => intro done stats n _; simp [runMaint_nil]
  | cons s rest ih =>
      intro done stats n h
      rw [runMaint_cons, if_neg (by simp [h s (List.mem_cons_self s rest)]),
        ih (done ++ [s]) stats n (fun t ht => h t (List.mem_cons_of_mem s ht))]
      simp

lemma statLookup_update_or_create_self (k : Nat × Int) (v : Nat × Int) :
    ∀ stats : Stats, statLookup k (update_or_create k v stats) = some v := by
  intro stats
  induction stats with
  | nil => simp [update_or_create, statLookup]
  | cons p rest ih =>
      obtain ⟨k', v'⟩ := p
      by_cases h : k' = k
      · simp [update_or_create, statLookup, h]
      · simp [update_or_create, statLookup, h, ih]

lemma statLookup_update_or_create_ne (k j : Nat × Int) (v : Nat × Int)
    (h : j ≠ k) :
    ∀ stats : Stats, statLookup j (update_or_create k v stats) = statLookup j stats := by
  have hkj : k ≠ j := Ne.symm h
  intro stats
  induction stats with
  | nil => simp [update_or_create, statLookup, hkj]
  | cons p rest ih =>
      obtain ⟨k', v'⟩ := p
      by_cases hk : k' = k
      · subst hk
        simp [update_or_create, statLookup, hkj]
      · simp [update_or_create, statLookup, hk, ih]

lemma completedFor_false_of_key (stu : Nat) (d : Int) (s : GymSession)
    (h : ¬(s.student = stu ∧ s.date = d)) : completedFor stu d s = false := by
  by_cases h1 : s.student = stu
  · by_cases h2 : s.date = d
    · exact absurd ⟨h1, h2⟩ h
    · simp [completedFor, h2]
  · simp [completedFor, h1]

/-- Replacing rows whose `(student, date)` key differs from the queried one
(by a key-preserving transform) does not change the queryset of
`update_daily_stats` for that key. -/
lemma filter_completedFor_map (g : GymSession → GymSession)
    (hg : ∀ s, (g s).student = s.student ∧ (g s).date = s.date)
    (stu : Nat) (d : Int) :
    ∀ l : List GymSession,
      (∀ s ∈ l, g s = s ∨ ¬(s.student = stu ∧ s.date = d)) →
      (l.map g).filter (completedFor stu d) = l.filter (completedFor stu d) := by
  intro l
  induction l with
  | nil => intro _; simp
  | cons s rest ih =>
      intro h
      have hrest := ih (fun t ht => h t (List.mem_cons_of_mem s ht))
      rcases h s (List.mem_cons_self s rest) with hid | hkey
      · simp only [List.map_cons, List.filter_cons, hid, hrest]
      · have h1 : completedFor stu d s = false := completedFor_false_of_key stu d s hkey
        have h2 : completedFor stu d (g s) = false := by
          refine completedFor_false_of_key stu d (g s) ?_
          rw [(hg s).1, (hg s).2]; exact hkey
        simp only [List.map_cons, List.filter_cons, h1, h2, Bool.false_eq_true,
          if_false, hrest]

lemma statsFor_map_eq (g : GymSession → GymSession)
    (hg : ∀ s, (g s).student = s.student ∧ (g s).date = s.date)
    (stu : Nat) (d : Int) (l : List GymSession)
    (h : ∀ s ∈ l, g s = s ∨ ¬(s.student = stu ∧ s.date = d)) :
    statsFor (l.map g) stu d = statsFor l stu d := by
  unfold statsFor
  rw [filter_completedFor_map g hg stu d l h]

/-- Keys never touched by the loop keep their stats row. -/
lemma runMaint_stats_frame (sel : GymSession → Bool) (tf : GymSession → GymSession) :
    ∀ (pending done : List GymSession) (stats : Stats) (n : Nat) (stu : Nat) (d : Int),
      (∀ s ∈ pending, sel s = true → ¬(s.student = stu ∧ s.date = d)) →
      statLookup (stu, d) (runMaint sel tf done pending stats n).2.1
        = statLookup (stu, d) stats := by
  intro pending
  induction pending with
  | nil => intro done stats n stu d _; simp [runMaint_nil]
  | cons s rest ih =>
      intro done stats n stu d h
      rw [runMaint_cons]
      by_cases hs : sel s
      · rw [if_pos hs,
          ih _ _ _ stu d (fun t ht hst => h t (List.mem_cons_of_mem s ht) hst)]
        refine statLookup_update_or_create_ne _ _ _ ?_ stats
        intro hk
        simp only [Prod.mk.injEq] at hk
        exact h s (List.mem_cons_self s rest) hs ⟨hk.1.symm, hk.2.symm⟩
      · rw [if_neg hs]
        exact ih _ _ _ stu d (fun t ht hst => h t (List.mem_cons_of_mem s ht) hst)

/-- After the loop, every `(student, date)` key owning at least one selected
session has its stats row equal to the recomputation over the final table. -/
lemma runMaint_stats_touched (sel : GymSession → Bool) (tf : GymSession → GymSession)
    (hkey : ∀ s, (tf s).student = s.student ∧ (tf s).date = s.date) :
    ∀ (pending done : List GymSession) (stats : Stats) (n : Nat) (stu : Nat) (d : Int),
      (∃ s ∈ pending, sel s = true ∧ s.student = stu ∧ s.date = d) →
      statLookup (stu, d) (runMaint sel tf done pending stats n).2.1
        = some (statsFor (runMaint sel tf done pending stats n).1 stu d) := by
  intro pending
  induction pending with
  | nil => intro done stats n stu d h; exact absurd h (by simp)
  | cons s rest ih =>
      intro done stats n stu d h
      rw [runMaint_cons]
      by_cases hs : sel s
      · rw [if_pos hs]
        by_cases htouch : ∃ t ∈ rest, sel t = true ∧ t.student = stu ∧ t.date = d
        · exact ih _ _ _ stu d htouch
        · have hsk : s.student = stu ∧ s.date = d := by
            rcases h with ⟨t, ht, hst, hk⟩
            rcases List.mem_cons.mp ht with rfl | hmem
            · exact hk
            · exact absurd ⟨t, hmem, hst, hk⟩ htouch
          have hframe := runMaint_stats_frame sel tf rest (done ++ [tf s])
            (update_daily_stats (done ++ tf s :: rest) s.student s.date stats)
            (n + 1) stu d
            (fun t ht hst hk => htouch ⟨t, ht, hst, hk⟩)
          rw [hframe]
          rw [runMaint_sessions]
          unfold update_daily_stats
          rw [hsk.1, hsk.2, statLookup_update_or_create_self]
          have hmapeq :
              statsFor (done ++ tf s :: rest.map fun t => if sel t then tf t else t)
                  stu d
                = statsFor (done ++ tf s :: rest) stu d := by
            unfold statsFor
            rw [List.filter_append, List.filter_append, List.filter_cons,
              List.filter_cons]
            have := filter_completedFor_map (fun t => if sel t then tf t else t)
              (fun t => by
                by_cases hc : sel t
                · simpa [hc] using hkey t
                · simp [hc])
              stu d rest
              (fun t ht => by
                by_cases hc : sel t
                · exact Or.inr (fun hk => htouch ⟨t, ht, hc, hk⟩)
                · exact Or.inl (by simp [hc]))
            rw [this]
          rw [← hmapeq]
          congr 1
          simp
      · rw [if_neg hs]
        refine ih _ _ _ stu d ?_
        rcases h with ⟨t, ht, hst, hk⟩
        rcases List.mem_cons.mp ht with rfl | hmem
        · exact absurd hst (by simp [hs])
        · exact ⟨t, hmem, hst, hk⟩

lemma stale_close_session_key (s : GymSession) :
    (stale_close_session s).student = s.student ∧
      (stale_close_session s).date = s.date := by
  simp [stale_close_session, GymSession.save]

lemma cap_session_key (s : GymSession) :
    (cap_session s).student = s.student ∧ (cap_session s).date = s.date := by
  simp [cap_session, GymSession.save]

lemma staleSelect_stale_close_session (today : Int) (s : GymSession) :
    staleSelect today (stale_close_session s) = false := by
  simp [staleSelect, stale_close_session, GymSession.save]

lemma tdiv_sixty_le (x : Int) (h : x ≤ 7200) : Int.tdiv x 60 ≤ 120 := by
  rcases le_or_lt 0 x with h0 | h0
  · rw [Int.tdiv_eq_ediv h0 (by norm_num)]
    calc x / 60 ≤ 7200 / 60 := Int.ediv_le_ediv (by norm_num) h
      _ = 120 := by decide
  · have hx : 0 ≤ -x := by omega
    have : 0 ≤ (-x).tdiv 60 := Int.tdiv_nonneg hx (by norm_num)
    rw [Int.neg_tdiv] at this
    omega

/-! ### The claims -/

/-- C3: the stale-session closer selects exactly the sessions that are
active, have no check-out, and are dated strictly before today; each such
session is closed at `min(check_in + 120min, 23:59:59 of its date)`,
deactivated, and its recorded duration is the whole-minute span from
check-in to that checkout; every other session is untouched. -/
theorem close_stale_sessions_spec (today : Int) (st : Store) :
    (close_stale_sessions_before_today today st).1.sessions
      = st.sessions.map (fun s =>
          if s.is_active && s.check_out_time.isNone && decide (s.date < today) then
            { s with
                check_out_time :=
                  some (min (s.check_in_time + 7200) (end_of_day s.date)),
                duration_minutes :=
                  Int.tdiv
                    (min (s.check_in_time + 7200) (end_of_day s.date)
                      - s.check_in_time) 60,
                is_active := false }
          else s) := by
  show (runMaint (staleSelect today) stale_close_session [] st.sessions
      st.stats 0).1 = _
  rw [runMaint_sessions]
  rw [List.nil_append]
  refine List.map_congr_left (fun s _ => ?_)
  by_cases h : staleSelect today s
  · rw [if_pos h, if_pos (by simpa [staleSelect] using h)]
    rfl
  · rw [if_neg h, if_neg (by simpa [staleSelect] using h)]

/-- C7: the stale-session closer is idempotent — a second run returns the
store produced by the first run unchanged and reports zero closed sessions,
because closing a session removes it from the selection predicate. -/
theorem close_stale_sessions_idempotent (today : Int) (st : Store) :
    close_stale_sessions_before_today today
        (close_stale_sessions_before_today today st).1
      = ((close_stale_sessions_before_today today st).1, 0) := by
  have hsel : ∀ s ∈ (close_stale_sessions_before_today today st).1.sessions,
      staleSelect today s = false := by
    intro s hs
    have : (close_stale_sessions_before_today today st).1.sessions
        = st.sessions.map
            (fun t => if staleSelect today t then stale_close_session t else t) := by
      show (runMaint (staleSelect today) stale_close_session [] st.sessions
          st.stats 0).1 = _
      rw [runMaint_sessions, List.nil_append]
    rw [this] at hs
    obtain ⟨t, _, rfl⟩ := List.mem_map.mp hs
    by_cases h : staleSelect today t
    · rw [if_pos h]; exact staleSelect_stale_close_session today t
    · rw [if_neg h]; exact Bool.not_eq_true _ ▸ (by simpa using h)
  show ( let r := runMaint (staleSelect today) stale_close_session []
          (close_stale_sessions_before_today today st).1.sessions
          (close_stale_sessions_before_today today st).1.stats 0
        ({ (close_stale_sessions_before_today today st).1 with
            sessions := r.1, stats := r.2.1 }, r.2.2)) = _
  rw [runMaint_noop (staleSelect today) stale_close_session _ [] _ 0 hsel]
  simp

/-- C8 (failing input): a session of day 0 whose clock-skewed check-in lies
after the end of its own date is closed by the stale closer with a stored
`duration_minutes` of `-1`: the in-loop clamp to zero is overwritten when
`session.save()` recomputes the duration from the timestamps, so the
no-negative-duration guarantee does not hold. -/
theorem close_stale_sessions_negative_duration :
    (close_stale_sessions_before_today 1
        ⟨[], [⟨1, 86460, none, 0, 0, true⟩], []⟩).1.sessions
      = [⟨1, 86460, some 86399, -1, 0, false⟩] ∧
    ∃ s ∈ (close_stale_sessions_before_today 1
        ⟨[], [⟨1, 86460, none, 0, 0, true⟩], []⟩).1.sessions,
      s.duration_minutes < 0 := by
  exact ⟨rfl, ⟨1, 86460, some 86399, -1, 0, false⟩, by decide, by decide⟩

/-- C9 (failing input): with two candidate rows that tie on student-ID
pattern quality and on RFID presence, `choose_primary` keeps the row whose
`registration_date` text is smallest — the OLDEST registration — although
both the spec and the script's own comment call for the most recent one. -/
theorem choose_primary_prefers_oldest :
    id_score "2023-140001" = id_score "2023-140002" ∧
    (⟨1, "2023-140001", "RFIDA", "2023-01-01"⟩ : CandRow).rfid ≠ "" ∧
    (⟨2, "2023-140002", "RFIDB", "2024-06-01"⟩ : CandRow).rfid ≠ "" ∧
    strLt "2023-01-01" "2024-06-01" = true ∧
    choose_primary
        [⟨1, "2023-140001", "RFIDA", "2023-01-01"⟩,
         ⟨2, "2023-140002", "RFIDB", "2024-06-01"⟩]
      = some ⟨1, "2023-140001", "RFIDA", "2023-01-01"⟩ := by
  refine ⟨rfl, by decide, by decide, by decide, by decide⟩

/-- C10 (counterexample to the claim as stated): saving a session whose
check-out lies before its check-in stores the truncated-toward-zero minute
count (−1 here), not the floor (−2): "floor" describes the recomputation
only for non-negative spans. -/
theorem save_floor_counterexample :
    (GymSession.save ⟨1, 90, some 0, 0, 0, true⟩).duration_minutes
      ≠ Int.fdiv ((0 : Int) - 90) 60 := by decide

/-- C10 (amended): whenever a session is saved with both timestamps set, the
stored record is deactivated and its duration is recomputed — overwriting
any previously assigned value — as the minute span from check-in to
check-out truncated toward zero, which coincides with the floor whenever
check-out is not before check-in; the timestamps themselves are kept. -/
theorem save_completes_session (s : GymSession) (co : Int)
    (h : s.check_out_time = some co) :
    (GymSession.save s).duration_minutes = Int.tdiv (co - s.check_in_time) 60
    ∧ (GymSession.save s).is_active = false
    ∧ (s.check_in_time ≤ co →
        (GymSession.save s).duration_minutes
          = Int.fdiv (co - s.check_in_time) 60)
    ∧ (GymSession.save s).check_in_time = s.check_in_time
    ∧ (GymSession.save s).check_out_time = some co := by
  obtain ⟨stu, ci, co', dm, d, act⟩ := s
  obtain rfl : co' = some co := h
  refine ⟨rfl, rfl, ?_, rfl, rfl⟩
  intro hle
  have hle' : ci ≤ co := hle
  have h0 : 0 ≤ co - ci := by omega
  show Int.tdiv (co - ci) 60 = Int.fdiv (co - ci) 60
  rw [Int.tdiv_eq_ediv h0 (by norm_num), Int.fdiv_eq_ediv _ (by norm_num)]

theorem save_completes_session_witness :
    (GymSession.save ⟨1, 0, some 150, 7, 0, true⟩).duration_minutes
        = Int.tdiv (150 - 0) 60
    ∧ (GymSession.save ⟨1, 0, some 150, 7, 0, true⟩).is_active = false
    ∧ (GymSession.save ⟨1, 0, some 150, 7, 0, true⟩).duration_minutes
        = Int.fdiv (150 - 0) 60 :=
  have h := save_completes_session ⟨1, 0, some 150, 7, 0, true⟩ 150 rfl
  ⟨h.1, h.2.1, h.2.2.1 (by decide)⟩

/-- C1 (counterexample to the claim as stated): the capper filters on
`date__lt=today`, so a 500-minute completed session dated today survives a
run untouched — the invariant does not hold "with no restriction on the
session's date". -/
theorem cap_leaves_today_sessions :
    ¬ (∀ s ∈ (cap_sessions_on_previous_days_to_two_hours 5
          ⟨[], [⟨1, 0, some 30000, 500, 5, false⟩], []⟩).1.sessions,
        s.duration_minutes ≤ 120) := by decide

/-- C1 (amended): in a store whose rows satisfy the save/creation invariant
(completed rows carry the truncated minute span of their timestamps, open
rows the default 0), a capper run leaves every session dated strictly
before today with `duration_minutes ≤ 120`; sessions dated today or later
are outside its queryset. -/
theorem cap_bounds_previous_days (today : Int) (st : Store)
    (hwf : ∀ s ∈ st.sessions, sessionWF s) :
    ∀ s ∈ (cap_sessions_on_previous_days_to_two_hours today st).1.sessions,
      s.date < today → s.duration_minutes ≤ 120 := by
  have hsess : (cap_sessions_on_previous_days_to_two_hours today st).1.sessions
      = st.sessions.map
          (fun t => if capSelect today t then cap_session t else t) := by
    show (runMaint (capSelect today) cap_session [] st.sessions st.stats 0).1 = _
    rw [runMaint_sessions, List.nil_append]
  intro s hs hd
  rw [hsess] at hs
  obtain ⟨t, htmem, rfl⟩ := List.mem_map.mp hs
  by_cases hc : capSelect today t
  · rw [if_pos hc]
    obtain ⟨stu, ci, co, dm, d, act⟩ := t
    show Int.tdiv (ci + 7200 - ci) 60 ≤ 120
    rw [add_sub_cancel_left]
    decide
  · rw [if_neg hc] at hd ⊢
    have hwft := hwf t htmem
    unfold sessionWF at hwft
    cases hco : t.check_out_time with
    | none => rw [hco] at hwft; rw [hwft]; norm_num
    | some co =>
        rw [hco] at hwft
        have hle : co - t.check_in_time ≤ 7200 := by
          by_contra hgt
          apply hc
          simp only [capSelect, hco, Option.getD_some, Bool.and_eq_true,
            decide_eq_true_eq]
          exact ⟨hd, by omega⟩
        rw [hwft]
        exact tdiv_sixty_le _ hle

theorem cap_bounds_previous_days_witness :
    (∀ s ∈ (⟨[], [⟨1, 0, some 30000, 500, 0, false⟩], []⟩ : Store).sessions,
        sessionWF s)
    ∧ (⟨1, 0, some 7200, 120, 0, false⟩ : GymSession)
        ∈ (cap_sessions_on_previous_days_to_two_hours 1
            ⟨[], [⟨1, 0, some 30000, 500, 0, false⟩], []⟩).1.sessions
    ∧ (⟨1, 0, some 7200, 120, 0, false⟩ : GymSession).duration_minutes ≤ 120 :=
  ⟨by decide, by decide,
    cap_bounds_previous_days 1 ⟨[], [⟨1, 0, some 30000, 500, 0, false⟩], []⟩
      (by decide) ⟨1, 0, some 7200, 120, 0, false⟩ (by decide) (by decide)⟩

/-- C4 (counterexample to the claim as stated): a completed session dated
today whose span exceeds 120 minutes is not touched by the capper, so "for
every completed session" is too strong — the capper's queryset is
`date__lt=today`. -/
theorem cap_skips_today_counterexample :
    (7200 : Int) < 40000 - 0 ∧
    (cap_sessions_on_previous_days_to_two_hours 5
        ⟨[], [⟨1, 0, some 40000, 666, 5, false⟩], []⟩).1.sessions
      = [⟨1, 0, some 40000, 666, 5, false⟩] ∧
    (⟨1, 0, some 40000, 666, 5, false⟩ : GymSession).check_out_time
      ≠ some ((0 : Int) + 7200) := by
  exact ⟨by decide, rfl, by decide⟩

/-- C4 (amended): the capper replaces each selected session by its capped
form and leaves every other row unchanged; for a completed session the
selection holds exactly when the session is dated strictly before today and
its check-out minus check-in exceeds 120 minutes, and the capped form has
`check_out = check_in + 120min`, duration exactly 120, and is inactive (the
claim's example: check-in 09:32:45, check-out 20:34:32 caps to check-out
11:32:45 with duration 120, provided the session's date lies before today). -/
theorem cap_sessions_spec (today : Int) (st : Store) :
    (cap_sessions_on_previous_days_to_two_hours today st).1.sessions
        = st.sessions.map
            (fun s => if capSelect today s then cap_session s else s)
    ∧ (∀ (s : GymSession) (co : Int), s.check_out_time = some co →
        ((capSelect today s = true) ↔
            (s.date < today ∧ 7200 < co - s.check_in_time))
        ∧ cap_session s
            = { s with check_out_time := some (s.check_in_time + 7200),
                       duration_minutes := 120,
                       is_active := false }) := by
  constructor
  · show (runMaint (capSelect today) cap_session [] st.sessions st.stats 0).1 = _
    rw [runMaint_sessions, List.nil_append]
  · intro s co h
    constructor
    · simp [capSelect, h]
    · obtain ⟨stu, ci, co', dm, d, act⟩ := s
      obtain rfl : co' = some co := h
      show GymSession.mk stu ci (some (ci + 7200))
          (Int.tdiv (ci + 7200 - ci) 60) d false = _
      rw [add_sub_cancel_left]
      rfl

theorem cap_sessions_spec_witness :
    (capSelect 1 ⟨7, 34365, some 74072, 661, 0, false⟩ = true ↔
        ((0 : Int) < 1 ∧ (7200 : Int) < 74072 - 34365))
    ∧ cap_session ⟨7, 34365, some 74072, 661, 0, false⟩
        = ⟨7, 34365, some 41565, 120, 0, false⟩ :=
  have h := (cap_sessions_spec 1 ⟨[], [], []⟩).2
    ⟨7, 34365, some 74072, 661, 0, false⟩ 74072 rfl
  ⟨h.1, h.2.trans (by decide)⟩

/-- C5: the check-in/check-out state machine rejects invalid transitions — a
check-in for a student with an active session fails with the conflict error
and leaves the store untouched (no session closed, none created), and a
check-out for a student with no active session fails with the
not-checked-in error and modifies nothing. -/
theorem check_in_out_rejections (today now : Int) (st : Store) (student : Nat) :
    ((∃ s ∈ st.sessions, activeFor student s = true) →
        gym_check_in_out today now st student GymAction.check_in = (st, false))
    ∧ (student ∈ st.students →
        (∃ s ∈ st.sessions, activeFor student s = true) →
        CheckInOutSerializer.validate today st student GymAction.check_in
          = some CIOError.already_checked_in)
    ∧ ((∀ s ∈ st.sessions, activeFor student s = false) →
        gym_check_in_out today now st student GymAction.check_out = (st, false))
    ∧ (student ∈ st.students →
        (∀ s ∈ st.sessions, activeFor student s = false) →
        CheckInOutSerializer.validate today st student GymAction.check_out
          = some CIOError.not_checked_in) := by
  refine ⟨?_, ?_, ?_, ?_⟩
  · intro hex
    have hfind : (st.sessions.find? (activeFor student)).isSome = true :=
      List.find?_isSome.mpr hex
    by_cases hmem : student ∈ st.students
    · simp [gym_check_in_out, CheckInOutSerializer.validate, hmem, hfind]
    · simp [gym_check_in_out, CheckInOutSerializer.validate, hmem]
  · intro hmem hex
    have hfind : (st.sessions.find? (activeFor student)).isSome = true :=
      List.find?_isSome.mpr hex
    simp [CheckInOutSerializer.validate, hmem, hfind]
  · intro hall
    have hfind : st.sessions.find? (activeFor student) = none :=
      List.find?_eq_none.mpr (fun s hs => by simp [hall s hs])
    by_cases hmem : student ∈ st.students
    · simp [gym_check_in_out, CheckInOutSerializer.validate, hmem, hfind]
    · simp [gym_check_in_out, CheckInOutSerializer.validate, hmem]
  · intro hmem hall
    have hfind : st.sessions.find? (activeFor student) = none :=
      List.find?_eq_none.mpr (fun s hs => by simp [hall s hs])
    simp [CheckInOutSerializer.validate, hmem, hfind]

theorem check_in_out_rejections_witness :
    gym_check_in_out 0 100 ⟨[1], [⟨1, 0, none, 0, 0, true⟩], []⟩ 1
        GymAction.check_in
      = (⟨[1], [⟨1, 0, none, 0, 0, true⟩], []⟩, false)
    ∧ CheckInOutSerializer.validate 0 ⟨[1], [⟨1, 0, none, 0, 0, true⟩], []⟩ 1
        GymAction.check_in = some CIOError.already_checked_in
    ∧ gym_check_in_out 0 100 ⟨[1], [], []⟩ 1 GymAction.check_out
      = (⟨[1], [], []⟩, false)
    ∧ CheckInOutSerializer.validate 0 ⟨[1], [], []⟩ 1 GymAction.check_out
      = some CIOError.not_checked_in :=
  ⟨(check_in_out_rejections 0 100 ⟨[1], [⟨1, 0, none, 0, 0, true⟩], []⟩ 1).1
      (by decide),
    (check_in_out_rejections 0 100 ⟨[1], [⟨1, 0, none, 0, 0, true⟩], []⟩ 1).2.1
      (by decide) (by decide),
    (check_in_out_rejections 0 100 ⟨[1], [], []⟩ 1).2.2.1 (by decide),
    (check_in_out_rejections 0 100 ⟨[1], [], []⟩ 1).2.2.2 (by decide)
      (by decide)⟩

/-- C6: `can_check_in` permits a check-in exactly when the student has no
active session (on any date) and their completed minutes for today — summed
over sessions with a non-null check-out dated today — are below 120; and an
open session contributes nothing to that daily total. -/
theorem can_check_in_spec (ss : List GymSession) (student : Nat) (today : Int) :
    (((GymSession.can_check_in ss student today).1 = true)
      ↔ ((∀ s ∈ ss, ¬(s.student = student ∧ s.is_active = true))
          ∧ GymSession.get_daily_gym_time ss student today < 120))
    ∧ (∀ s : GymSession, s.check_out_time = none →
        GymSession.get_daily_gym_time (s :: ss) student today
          = GymSession.get_daily_gym_time ss student today) := by
  constructor
  · unfold GymSession.can_check_in
    by_cases hf : (ss.find? (fun s => s.student == student && s.is_active)).isSome
    · rw [if_pos hf]
      constructor
      · intro h; exact absurd h (by simp)
      · rintro ⟨hno, -⟩
        obtain ⟨x, hx, hpx⟩ := List.find?_isSome.mp hf
        simp only [Bool.and_eq_true, beq_iff_eq] at hpx
        exact absurd ⟨hpx.1, hpx.2⟩ (hno x hx)
    · rw [if_neg hf]
      simp only [decide_eq_true_eq]
      constructor
      · intro h
        refine ⟨?_, by omega⟩
        intro s hs hcon
        exact hf (List.find?_isSome.mpr ⟨s, hs, by simp [hcon.1, hcon.2]⟩)
      · rintro ⟨-, hlt⟩; omega
  · intro s h
    simp [GymSession.get_daily_gym_time, List.filter_cons, completedFor, h]

theorem can_check_in_spec_witness :
    ((GymSession.can_check_in [⟨1, 0, some 3600, 60, 0, false⟩] 1 0).1 = true
      ↔ ((∀ s ∈ [(⟨1, 0, some 3600, 60, 0, false⟩ : GymSession)],
            ¬(s.student = 1 ∧ s.is_active = true))
          ∧ GymSession.get_daily_gym_time
              [⟨1, 0, some 3600, 60, 0, false⟩] 1 0 < 120))
    ∧ GymSession.get_daily_gym_time
          [⟨1, 50, none, 0, 0, true⟩, ⟨1, 0, some 3600, 60, 0, false⟩] 1 0
        = GymSession.get_daily_gym_time [⟨1, 0, some 3600, 60, 0, false⟩] 1 0 :=
  ⟨(can_check_in_spec [⟨1, 0, some 3600, 60, 0, false⟩] 1 0).1,
    (can_check_in_spec [⟨1, 0, some 3600, 60, 0, false⟩] 1 0).2
      ⟨1, 50, none, 0, 0, true⟩ rfl⟩

/-- C2: `update_daily_stats` overwrites (creating if absent) the
`(student, date)` row with the count and minute-sum recomputed from that
key's completed sessions, whatever the row held before; and immediately
after a check-out, a stale-closer run, or a capper run, every
`(student, date)` key those operations touched has its stats row equal to
that recomputation over the resulting session table. -/
theorem daily_stats_recompute_invariant :
    (∀ (ss : List GymSession) (stu : Nat) (d : Int) (stats : Stats),
        statLookup (stu, d) (update_daily_stats ss stu d stats)
          = some (statsFor ss stu d))
    ∧ (∀ (today : Int) (st : Store) (stu : Nat) (d : Int),
        (∃ s ∈ st.sessions, staleSelect today s = true
            ∧ s.student = stu ∧ s.date = d) →
        statLookup (stu, d)
            (close_stale_sessions_before_today today st).1.stats
          = some (statsFor
              (close_stale_sessions_before_today today st).1.sessions stu d))
    ∧ (∀ (today : Int) (st : Store) (stu : Nat) (d : Int),
        (∃ s ∈ st.sessions, capSelect today s = true
            ∧ s.student = stu ∧ s.date = d) →
        statLookup (stu, d)
            (cap_sessions_on_previous_days_to_two_hours today st).1.stats
          = some (statsFor
              (cap_sessions_on_previous_days_to_two_hours today st).1.sessions
              stu d))
    ∧ (∀ (today now : Int) (st : Store) (stu : Nat) (act : GymSession),
        st.sessions.find? (activeFor stu) = some act →
        stu ∈ st.students →
        statLookup (stu, act.date)
            (gym_check_in_out today now st stu GymAction.check_out).1.stats
          = some (statsFor
              (gym_check_in_out today now st stu GymAction.check_out).1.sessions
              stu act.date)) := by
  refine ⟨?_, ?_, ?_, ?_⟩
  · intro ss stu d stats
    exact statLookup_update_or_create_self (stu, d) (statsFor ss stu d) stats
  · intro today st stu d h
    exact runMaint_stats_touched (staleSelect today) stale_close_session
      stale_close_session_key st.sessions [] st.stats 0 stu d h
  · intro today st stu d h
    exact runMaint_stats_touched (capSelect today) cap_session
      cap_session_key st.sessions [] st.stats 0 stu d h
  · intro today now st stu act hfind hmem
    have hsome : (st.sessions.find? (activeFor stu)).isSome = true := by
      rw [hfind]; rfl
    simp only [gym_check_in_out, CheckInOutSerializer.validate, if_pos hmem,
      if_pos hsome, hfind]
    exact statLookup_update_or_create_self (stu, act.date) _ st.stats

theorem daily_stats_recompute_invariant_witness :
    statLookup (1, 0)
        (update_daily_stats [⟨1, 0, some 3600, 60, 0, false⟩] 1 0 [])
      = some (statsFor [⟨1, 0, some 3600, 60, 0, false⟩] 1 0)
    ∧ statLookup (1, 0)
        (close_stale_sessions_before_today 1
            ⟨[], [⟨1, 32400, none, 0, 0, true⟩], []⟩).1.stats
      = some (statsFor
          (close_stale_sessions_before_today 1
              ⟨[], [⟨1, 32400, none, 0, 0, true⟩], []⟩).1.sessions 1 0)
    ∧ statLookup (7, 0)
        (cap_sessions_on_previous_days_to_two_hours 1
            ⟨[], [⟨7, 34365, some 74072, 661, 0, false⟩], []⟩).1.stats
      = some (statsFor
          (cap_sessions_on_previous_days_to_two_hours 1
              ⟨[], [⟨7, 34365, some 74072, 661, 0, false⟩], []⟩).1.sessions
          7 0)
    ∧ statLookup (1, 0)
        (gym_check_in_out 0 100 ⟨[1], [⟨1, 0, none, 0, 0, true⟩], []⟩ 1
            GymAction.check_out).1.stats
      = some (statsFor
          (gym_check_in_out 0 100 ⟨[1], [⟨1, 0, none, 0, 0, true⟩], []⟩ 1
              GymAction.check_out).1.sessions 1 0) :=
  ⟨daily_stats_recompute_invariant.1 [⟨1, 0, some 3600, 60, 0, false⟩] 1 0 [],
    daily_stats_recompute_invariant.2.1 1
      ⟨[], [⟨1, 32400, none, 0, 0, true⟩], []⟩ 1 0
      ⟨⟨1, 32400, none, 0, 0, true⟩, by decide, by decide, rfl, rfl⟩,
    daily_stats_recompute_invariant.2.2.1 1
      ⟨[], [⟨7, 34365, some 74072, 661, 0, false⟩], []⟩ 7 0
      ⟨⟨7, 34365, some 74072, 661, 0, false⟩, by decide, by decide, rfl, rfl⟩,
    daily_stats_recompute_invariant.2.2.2 0 100
      ⟨[1], [⟨1, 0, none, 0, 0, true⟩], []⟩ 1 ⟨1, 0, none, 0, 0, true⟩
      (by decide) (by decide)⟩

end GymLog
